import Mathlib

/-!
# Verification of matterbuild's plugin release pipeline

A shallow embedding, in Lean 4, of the plugin release machinery of
mattermost/matterbuild (`server/plugin_release.go` and the `cutplugin`
command of `server/server.go`), together with theorems settling the
spec claims about it.

Conventions of the embedding:

* The GitHub API backend is modelled as explicit state
  (`GithubRepoState` for git refs/commits, `ReleaseState` for a
  release's assets); every mutating call is recorded in an operation
  trace so that "performs no mutating calls" is a provable statement.
* Go strings are Lean `String`s; `strings.HasPrefix`, `strings.HasSuffix`
  and `strings.Contains` are modelled on the underlying character lists,
  where the needed lemmas live.
* Archive contents are modelled as lists of file paths; a path inside an
  archive is the list of its components (tar entries never contain the
  client's temporary directory prefix, which is irrelevant to every
  property proved here).
* Fallible remote operations (sftp, ssh, S3, HTTP) are driven by
  explicit oracles (`SignEnv`, `CutEnv`): each field decides whether the
  corresponding remote call succeeds, which lets the theorems quantify
  over every possible failure pattern.
* The polling loops (`getPluginRelease`, `getPluginAsset`) run on an
  explicit poll counter: the 50 minute deadline with a 30 second wait
  between iterations allows `maxPolls = 100` sleeps before the
  `ctx.Done()` branch fires.

The file is laid out as definitions first, then all theorems.
-/

set_option linter.unusedVariables false

namespace Matterbuild

/-! ## String helpers (models of Go's `strings` and `path/filepath`) -/

/-- Model of Go `strings.HasPrefix p s` (note the argument order:
the needle comes first here). -/
def strHasPre (p s : String) : Bool := p.data.isPrefixOf s.data

/-- Model of Go `strings.HasSuffix s suf`, needle first. -/
def strHasSuf (suf s : String) : Bool := suf.data.isSuffixOf s.data

/-- Character-list version of substring containment. -/
def charsContain : List Char → List Char → Bool
  | needle, [] => needle.isEmpty
  | needle, c :: rest => needle.isPrefixOf (c :: rest) || charsContain needle rest

/-- Model of Go `strings.Contains s needle`, needle first. -/
def strContainsSub (needle s : String) : Bool := charsContain needle.data s.data

/-- Characters after the last `/` of a character list. -/
def baseNameChars (l : List Char) : List Char :=
  l.foldl (fun acc c => if c = '/' then [] else acc ++ [c]) []

/-- Model of Go `filepath.Base` for the slash-separated paths used by the
release pipeline (none of which are empty or end in a slash). -/
def baseNameStr (p : String) : String := ⟨baseNameChars p.data⟩

/-! ## GitHub git data model (for `createTag`, `server/plugin_release.go`)

The repository identified by `(owner, repository)` is modelled by a
`GithubRepoState`.  `client.Git.GetRefs(ctx, owner, repo, pat)` is
GitHub's "list matching references": it returns every ref whose full
name starts with `refs/<pat>`, and responds 404 when none does (the Go
code treats that 404 as an empty list).  `client.Git.GetRef` is an exact
lookup of `refs/<name>`.  `client.Repositories.GetCommit` succeeds
exactly when the SHA is a commit of the repository, and
`client.Repositories.Get` yields the repository's default branch
(`none` models a failed lookup, mapped to the `"master"` fallback
exactly as the Go code does). -/

/-- A git reference, as returned by the GitHub API (`ref.GetRef()` is
the full name such as `refs/tags/v1.2.3`). -/
structure GitRef where
  ref : String
  sha : String
deriving DecidableEq, Repr

/-- Backend state of one GitHub repository's git data. -/
structure GithubRepoState where
  refs : List GitRef
  commits : List String
  defaultBranch : Option String
  /-- Annotated tag objects created with `client.Git.CreateTag`,
  as `(tag, message, sha)`. -/
  tagObjects : List (String × String × String)
deriving DecidableEq, Repr

/-- A mutating GitHub git call. -/
inductive GitMutation where
  | createTagObject (tag message sha : String)
  | createRef (ref sha : String)
deriving DecidableEq, Repr

/-- The error results of `createTag`. -/
inductive TagError where
  | tagExists
  | apiError (msg : String)
deriving DecidableEq, Repr

instance {ε α : Type} [DecidableEq ε] [DecidableEq α] : DecidableEq (Except ε α) :=
  fun a b =>
    match a, b with
    | .ok x, .ok y =>
        if h : x = y then .isTrue (by rw [h]) else .isFalse (by simp [h])
    | .error e, .error f =>
        if h : e = f then .isTrue (by rw [h]) else .isFalse (by simp [h])
    | .ok _, .error _ => .isFalse (by simp)
    | .error _, .ok _ => .isFalse (by simp)

/-- What a call to `createTag` produced: its return value, the backend
state afterwards, and the mutating GitHub calls it performed. -/
structure CreateTagResult where
  result : Except TagError Unit
  state : GithubRepoState
  ops : List GitMutation
deriving DecidableEq, Repr

/-- The duplicate-tag test of `createTag`: `GetRefs` returns the refs
whose full name has prefix `refs/tags/<tag>`, and the loop reports
`ErrTagExists` when one of them ends in `tags/<tag>`. -/
def tagRefExists (st : GithubRepoState) (tag : String) : Bool :=
  (st.refs.filter (fun r => strHasPre ("refs/" ++ ("tags/" ++ tag)) r.ref)).any
    (fun r => strHasSuf ("tags/" ++ tag) r.ref)

/-- Embedding of `createTag` (`server/plugin_release.go`).  It creates a
new tag at the given commit for the repository; returns `ErrTagExists`
if the tag already exists; an empty `commitSHA` means "the default
branch's tip, or `master` if the default branch lookup fails"; a
non-empty `commitSHA` is verified with `GetCommit` before anything is
created.  On success it creates the annotated tag object and then the
`tags/<tag>` ref pointing at the same commit. -/
def createTag (st : GithubRepoState) (owner repository tag commitSHA : String) :
    CreateTagResult :=
  let tagRef := "tags/" ++ tag
  if tagRefExists st tag then
    ⟨.error .tagExists, st, []⟩
  else
    let shaRes : Except TagError String :=
      if commitSHA = "" then
        let branch :=
          match st.defaultBranch with
          | some b => if b ≠ "" then b else "master"
          | none => "master"
        match st.refs.find? (fun r => r.ref == "refs/heads/" ++ branch) with
        | some r => .ok r.sha
        | none => .error (.apiError "failed to get github ref")
      else
        if st.commits.contains commitSHA then .ok commitSHA
        else .error (.apiError "failed to fetch sha details")
    match shaRes with
    | .error e => ⟨.error e, st, []⟩
    | .ok sha =>
        ⟨.ok (),
         { st with
            refs := st.refs ++ [⟨"refs/" ++ tagRef, sha⟩],
            tagObjects := st.tagObjects ++ [(tag, tag, sha)] },
         [.createTagObject tag tag sha, .createRef tagRef sha]⟩

/-- Exact single-ref lookup, modelling `client.Git.GetRef(ctx, owner,
repo, name)` (the API prepends `refs/`). -/
def getGitRef (st : GithubRepoState) (name : String) : Option GitRef :=
  st.refs.find? (fun r => r.ref == "refs/" ++ name)

/-- A repository state used by several witnesses: a `master` branch at
commit `deadbeef1` and an existing tag `v1.2.3`. -/
def stTagged : GithubRepoState :=
  { refs := [⟨"refs/heads/master", "deadbeef1"⟩, ⟨"refs/tags/v1.2.3", "deadbeef1"⟩],
    commits := ["deadbeef1", "deadbeef2"],
    defaultBranch := some "main",
    tagObjects := [] }

/-- A repository state with a `main` default branch and no tags. -/
def stFresh : GithubRepoState :=
  { refs := [⟨"refs/heads/main", "feedc0de1"⟩, ⟨"refs/heads/master", "feedc0de2"⟩],
    commits := ["feedc0de1", "feedc0de2"],
    defaultBranch := some "main",
    tagObjects := [] }

/-! ## Release / asset model and the polling loops
(`getPluginRelease`, `getPluginAsset` of `server/plugin_release.go`)

`getPluginRelease` polls `client.Repositories.GetReleaseByTag` every 30
seconds inside a context bounded by `pluginAssetTimeout` (50 minutes);
the source host's response at the `i`-th poll is given by a function
`Nat → HostResp`.  A 404 (`HostResp.notFound`: the release does not
exist yet) makes the loop retry; any other API error aborts.  After at
most `maxPolls` sleeps the `ctx.Done()` branch returns the timeout
error.

`getPluginAsset` receives the `*github.RepositoryRelease` value fetched
by `getPluginRelease` and repeatedly scans `release.Assets` — a plain
in-memory slice that nothing ever refreshes — for the plugin bundle. -/

/-- A release asset (`github.ReleaseAsset`): its id and file name. -/
structure ReleaseAsset where
  id : Nat
  name : String
deriving DecidableEq, Repr

/-- A repository release (`github.RepositoryRelease`). -/
structure GhRelease where
  id : Nat
  tagName : String
  assets : List ReleaseAsset
deriving DecidableEq, Repr

/-- The source host's answer to one `GetReleaseByTag` poll. -/
inductive HostResp where
  | notFound
  | apiErr (msg : String)
  | found (r : GhRelease)
deriving DecidableEq, Repr

/-- `pluginAssetTimeout` is 50 minutes and the loop sleeps 30 seconds
between polls, so 100 sleeps fit before the deadline. -/
def maxPolls : Nat := 50 * 60 / 30

/-- The polling loop of `getPluginRelease`: query, return the release
when found, abort on a non-404 API error, otherwise wait 30s — or give
up with the timeout error once the deadline has passed. -/
def getPluginReleaseAux (host : Nat → HostResp) : Nat → Nat → Except String GhRelease
  | i, fuel =>
    match host i with
    | .apiErr m => .error ("failed to get release by tag: " ++ m)
    | .found r => .ok r
    | .notFound =>
        match fuel with
        | 0 => .error "timed out waiting for ok response"
        | fuel' + 1 => getPluginReleaseAux host (i + 1) fuel'

/-- Embedding of `getPluginRelease`: polls till it finds the release for
the tag, treating 404 as "not there yet". -/
def getPluginRelease (host : Nat → HostResp) : Except String GhRelease :=
  getPluginReleaseAux host 0 maxPolls

/-- One pass of `getPluginAsset`'s scan when no asset name is given:
walk the assets in order; an asset ending in `.tar.gz` is the candidate,
and a second such asset is the fatal `found unexpected file` error. -/
def findTarGzAsset : List ReleaseAsset → Option ReleaseAsset →
    Except String (Option ReleaseAsset)
  | [], acc => .ok acc
  | a :: rest, acc =>
      if strHasSuf ".tar.gz" a.name then
        match acc with
        | some _ => .error ("found unexpected file " ++ a.name)
        | none => findTarGzAsset rest (some a)
      else findTarGzAsset rest acc

/-- One pass of `getPluginAsset`'s scan: with a non-empty `assetName`
only an asset with exactly that name is accepted (first match wins);
otherwise the `.tar.gz` scan above runs. -/
def scanAssets (assets : List ReleaseAsset) (assetName : String) :
    Except String (Option ReleaseAsset) :=
  if assetName ≠ "" then .ok (assets.find? (fun a => a.name == assetName))
  else findTarGzAsset assets none

/-- The polling loop of `getPluginAsset`: re-scan `release.Assets`
(which never changes) until an asset is found or the deadline passes. -/
def getPluginAssetAux (release : GhRelease) (assetName : String) :
    Nat → Except String ReleaseAsset
  | 0 =>
      match scanAssets release.assets assetName with
      | .error e => .error e
      | .ok (some a) => .ok a
      | .ok none => .error "timed out waiting for ok response"
  | fuel + 1 =>
      match scanAssets release.assets assetName with
      | .error e => .error e
      | .ok (some a) => .ok a
      | .ok none => getPluginAssetAux release assetName fuel

/-- Embedding of `getPluginAsset`. -/
def getPluginAsset (release : GhRelease) (assetName : String) :
    Except String ReleaseAsset :=
  getPluginAssetAux release assetName maxPolls

/-- The asset wait of `cutPlugin`: `getPluginRelease` followed by
`getPluginAsset` on the release value it returned. -/
def waitForPluginAsset (host : Nat → HostResp) (assetName : String) :
    Except String ReleaseAsset :=
  match getPluginRelease host with
  | .error e => .error e
  | .ok release => getPluginAsset release assetName

/-- The failing input for C2: the release for the tag is published at
poll 0 with no assets yet, and from poll 1 (30 seconds later, far inside
the 50-minute bound) the host exposes it together with the plugin
bundle asset. -/
def staleAssetHost : Nat → HostResp := fun i =>
  if i = 0 then .found ⟨10, "v1.2.3", []⟩
  else .found ⟨10, "v1.2.3", [⟨77, "com.mattermost.demo-plugin-0.1.0.tar.gz"⟩]⟩

/-- `.tar.gz` test used by `getPluginAsset`'s hint-less scan. -/
def isTarGz (a : ReleaseAsset) : Bool := strHasSuf ".tar.gz" a.name

/-! ## Platform bundle splitter
(`findPlatformBinaries`, `createPlatformPlugin(s)`, `archiveContains`)

An archive (or the directory it unpacks into) is a list of the paths of
its regular files; a path is the list of its slash-separated components
(relative to the unpack directory — the random temporary directory
prefix plays no role in any of the code's checks).  The plugin manifest
(`plugin.json`, located by `model.FindManifest` after descending into a
single top-level directory) is carried alongside as parsed data:
`manifest = none` models a missing or unparsable manifest. -/

/-- A file path inside an archive, as its list of components. -/
abbrev TarPath := List String

/-- Last path component (`filepath.Base`). -/
def baseName (p : TarPath) : String := p.getLastD ""

/-- All but the last component. -/
def dirOf (p : TarPath) : TarPath := p.dropLast

/-- The slash-joined form of a path (used for Go checks that run on the
whole path string, such as `strings.HasSuffix(f, binary)`). -/
def pathStr (p : TarPath) : String :=
  match p with
  | [] => ""
  | a :: rest => rest.foldl (fun acc x => acc ++ "/" ++ x) a

/-- First path component. -/
def topLevelName (p : TarPath) : String := p.headD ""

def topEntriesAux : List TarPath → List String → List String
  | [], acc => acc.reverse
  | p :: rest, acc =>
      let n := topLevelName p
      if acc.contains n then topEntriesAux rest acc
      else topEntriesAux rest (n :: acc)

/-- `os.ReadDir` on the unpack directory: the distinct top-level entry
names (the code only ever relies on how many there are and on the name
of the single entry, so the listing order is irrelevant). -/
def topEntries (files : List TarPath) : List String := topEntriesAux files []

/-- `manifest.Server` of a plugin manifest: the per-platform executable
paths and the legacy singular executable field. -/
structure PluginManifestServer where
  executables : List (String × String)
  executable : String
deriving DecidableEq, Repr

/-- A plugin manifest (`model.Manifest`), reduced to the fields
`findPlatformBinaries` reads. -/
structure PluginManifest where
  server : Option PluginManifestServer
deriving DecidableEq, Repr

/-- A plugin bundle: its regular files and its parsed manifest. -/
structure PluginBundle where
  files : List TarPath
  manifest : Option PluginManifest
deriving DecidableEq, Repr

/-- Embedding of `findPlatformBinaries`: reads the manifest of the
(unpacked) bundle and maps each declared platform to the base name of
its executable.  Fails when there is no manifest, no server section, or
no per-platform executables. -/
def findPlatformBinaries (bundle : PluginBundle) :
    Except String (List (String × String)) :=
  match bundle.manifest with
  | none => .error "failed to find manifest"
  | some m =>
      match m.server with
      | none => .error "no server defined"
      | some srv =>
          if srv.executables.isEmpty then
            if srv.executable.length > 0 then
              .error "singular executable without defined platform not supported"
            else .error "no executables defined"
          else .ok (srv.executables.map (fun pb => (pb.1, baseNameStr pb.2)))

/-- Embedding of `createPlatformPlugin`: unpack the bundle, require
exactly one top-level entry (the plugin directory), delete every file
matched by the glob `<pluginDir>/server/dist/plugin-*` whose full path
does not end in `binary`, and re-pack what is left. -/
def createPlatformPlugin (bundle : PluginBundle) (binary : String) :
    Except String (List TarPath) :=
  match topEntries bundle.files with
  | [pluginDir] =>
      .ok (bundle.files.filter (fun p =>
        !(dirOf p == [pluginDir, "server", "dist"] &&
          strHasPre "plugin-" (baseName p) &&
          !strHasSuf binary (pathStr p))))
  | _ => .error "error finding plugin directory"

/-- Embedding of `archiveContains`: the base names of the archive's
regular files that contain the given string. -/
def archiveContains (files : List TarPath) (contains : String) : List String :=
  (files.filter (fun p => strContainsSub contains (baseName p))).map baseName

/-- Go's `%v` rendering of the `found` slice in the mismatch error. -/
def fmtFoundList (found : List String) : String :=
  "[" ++ (match found with
          | [] => ""
          | a :: rest => rest.foldl (fun acc x => acc ++ " " ++ x) a) ++ "]"

/-- One produced platform bundle: its path and the files inside it. -/
structure PlatformTarOut where
  path : String
  files : List TarPath
deriving DecidableEq, Repr

/-- The loop body of `createPlatformPlugins` over the platform map: for
each `(platform, binary)` build the platform tar, then re-open it and
require that it contains exactly one `plugin-` file, equal to the
expected binary; on any mismatch fail with an error naming the expected
and the found binaries. -/
def createPlatformPluginsAux (repositoryName tag pluginFolder : String)
    (bundle : PluginBundle) :
    List (String × String) → Except String (List PlatformTarOut)
  | [] => .ok []
  | (platform, binary) :: rest =>
      let platformTarPath :=
        pluginFolder ++ "/" ++ repositoryName ++ "-" ++ tag ++ "-" ++ platform ++ ".tar.gz"
      match createPlatformPlugin bundle binary with
      | .error e =>
          .error ("failed to create platform tar for " ++ platformTarPath ++ ": " ++ e)
      | .ok outFiles =>
          let found := archiveContains outFiles "plugin-"
          if found.length != 1 || found.headD "" != binary then
            .error ("found wrong platform binary in " ++ platformTarPath ++
              ", expected " ++ binary ++ ", but found " ++ fmtFoundList found)
          else
            match createPlatformPluginsAux repositoryName tag pluginFolder bundle rest with
            | .error e => .error e
            | .ok outs => .ok (⟨platformTarPath, outFiles⟩ :: outs)

/-- Embedding of `createPlatformPlugins`: split the universal bundle
into one tar per platform declared in its manifest. -/
def createPlatformPlugins (repositoryName tag : String) (bundle : PluginBundle)
    (pluginFolder : String) : Except String (List PlatformTarOut) :=
  match findPlatformBinaries bundle with
  | .error e => .error e
  | .ok platformBinaries =>
      createPlatformPluginsAux repositoryName tag pluginFolder bundle platformBinaries

/-- C3's universal bundle: a manifest declaring exactly the three
platforms and an archive holding exactly those three binaries. -/
def demoBundle3 : PluginBundle :=
  { files := [["com.mattermost.demo-plugin", "plugin.json"],
              ["com.mattermost.demo-plugin", "server", "dist", "plugin-darwin-amd64"],
              ["com.mattermost.demo-plugin", "server", "dist", "plugin-windows-amd64.exe"],
              ["com.mattermost.demo-plugin", "server", "dist", "plugin-linux-amd64"]],
    manifest := some ⟨some ⟨[("darwin-amd64", "plugin-darwin-amd64"),
                             ("windows-amd64", "plugin-windows-amd64.exe"),
                             ("linux-amd64", "plugin-linux-amd64")], ""⟩⟩ }

/-- C7's universal bundle: the manifest declares (and the archive
contains) only the linux-amd64 binary. -/
def demoBundleLinux : PluginBundle :=
  { files := [["com.mattermost.demo-plugin", "plugin.json"],
              ["com.mattermost.demo-plugin", "server", "dist", "plugin-linux-amd64"]],
    manifest := some ⟨some ⟨[("linux-amd64", "plugin-linux-amd64")], ""⟩⟩ }

/-! ## Plugin signing (`signPlugins` and its helpers)

Every helper talks to the signing server over sftp/ssh; whether each
remote call succeeds is decided by a `SignEnv` oracle.  Within one
helper, the per-file sub-steps that the Go code performs back to back
(open the local file, create/open the remote file, stream the bytes)
are collapsed into one per-file success bit, since the code aborts the
whole batch on the first failure of any of them.
`removeFilesFromRemoteServer` additionally reports which staged remote
files it actually removed, so that "no staged remote file has been
removed" is a provable statement. -/

/-- Success oracle for the signing pipeline's fallible calls. -/
structure SignEnv where
  /-- `getPluginSigningSftpClient` (dial + sftp handshake). -/
  sftpOk : Bool
  /-- Per local file: `os.Open`, `sftp.Create`, `ReadFrom`. -/
  uploadOk : String → Bool
  /-- `getSSHClientConfig` for the signing run. -/
  sshConfigOk : Bool
  /-- Per remote file: the `sign_plugin.sh` run. -/
  signOk : String → Bool
  /-- Per remote signature file: `sftp.Open`, `os.Create`, `WriteTo`. -/
  fetchOk : String → Bool
  /-- `armor.Decode`/`ReadKeyRing` of the embedded public key. -/
  keyringOk : Bool
  /-- Per plugin file: `openpgp.CheckDetachedSignature`. -/
  verifyOk : String → Bool
  /-- Per remote file: `sftp.Remove`. -/
  removeOk : String → Bool

def copyFilesToRemoteAux (env : SignEnv) : List String → Except String (List String)
  | [] => .ok []
  | f :: rest =>
      if env.uploadOk f then
        match copyFilesToRemoteAux env rest with
        | .error e => .error e
        | .ok r => .ok (("/tmp/" ++ baseNameStr f) :: r)
      else .error ("failed to copy file " ++ f)

/-- Embedding of `copyFilesToRemoteServer`: stage every file under
`/tmp/<base>` on the signing server, aborting on the first failure;
returns the remote paths. -/
def copyFilesToRemoteServer (env : SignEnv) (filePaths : List String) :
    Except String (List String) :=
  if env.sftpOk then copyFilesToRemoteAux env filePaths
  else .error "failed to get sftp client"

def signFilesOnRemoteAux (env : SignEnv) : List String → Except String (List String)
  | [] => .ok []
  | p :: rest =>
      if env.signOk p then
        match signFilesOnRemoteAux env rest with
        | .error e => .error e
        | .ok r => .ok (("/opt/plugin-signer/output/" ++ baseNameStr p ++ ".sig") :: r)
      else .error "failed to run signer script"

/-- Embedding of `signFilesOnRemoteServer`: run the signer script for
every staged file; returns the remote signature paths. -/
def signFilesOnRemoteServer (env : SignEnv) (remoteFilePaths : List String) :
    Except String (List String) :=
  if env.sshConfigOk then signFilesOnRemoteAux env remoteFilePaths
  else .error "failed to setup client config"

def copyFilesFromRemoteAux (env : SignEnv) : List String → Except String Unit
  | [] => .ok ()
  | f :: rest =>
      if env.fetchOk f then copyFilesFromRemoteAux env rest
      else .error ("failed to open remote file " ++ f)

/-- Embedding of `copyFilesFromRemoteServer`: fetch every remote
signature into the plugin folder. -/
def copyFilesFromRemoteServer (env : SignEnv) (remoteFiles : List String)
    (pluginFolder : String) : Except String Unit :=
  if env.sftpOk then copyFilesFromRemoteAux env remoteFiles
  else .error "failed to get sftp client"

def verifySignaturesAux (env : SignEnv) : List String → Except String Unit
  | [] => .ok ()
  | f :: rest =>
      if env.verifyOk f then verifySignaturesAux env rest
      else .error "error while checking the signature"

/-- Embedding of `verifySignatures`: check the detached signature
`<file>.sig` of every plugin file against the embedded public key. -/
def verifySignatures (env : SignEnv) (pluginFilePaths : List String) :
    Except String Unit :=
  if env.keyringOk then verifySignaturesAux env pluginFilePaths
  else .error "failed to decode public key"

def removeFilesAux (env : SignEnv) : List String → Except String Unit × List String
  | [] => (.ok (), [])
  | f :: rest =>
      if env.removeOk f then
        let r := removeFilesAux env rest
        (r.1, f :: r.2)
      else (.error ("failed to remove " ++ f), [])

/-- Embedding of `removeFilesFromRemoteServer`; the second component is
the list of staged remote files that were actually removed. -/
def removeFilesFromRemoteServer (env : SignEnv) (remoteFiles : List String) :
    Except String Unit × List String :=
  if env.sftpOk then removeFilesAux env remoteFiles
  else (.error "failed to get sftp client", [])

/-- Embedding of `signPlugins`: copy the plugin tars to the signing
server, sign them there, fetch the signatures, verify them, and only
then delete the staged remote copies.  The second component is the list
of staged remote files that were removed. -/
def signPlugins (env : SignEnv) (filePaths : List String) (tmpFolder : String) :
    Except String Unit × List String :=
  match copyFilesToRemoteServer env filePaths with
  | .error e => (.error ("error while copying files: " ++ e), [])
  | .ok remotePaths =>
      match signFilesOnRemoteServer env remotePaths with
      | .error e => (.error ("error while signing files: " ++ e), [])
      | .ok remoteSignaturePaths =>
          match copyFilesFromRemoteServer env remoteSignaturePaths tmpFolder with
          | .error e => (.error ("error while copying remote files: " ++ e), [])
          | .ok _ =>
              match verifySignatures env filePaths with
              | .error e => (.error ("failed signature verification: " ++ e), [])
              | .ok _ =>
                  let rem := removeFilesFromRemoteServer env remotePaths
                  match rem.1 with
                  | .error e =>
                      (.error ("failed to remove files from remote server: " ++ e), rem.2)
                  | .ok _ => (.ok (), rem.2)

/-- A signing environment in which everything succeeds except signature
verification. -/
def signEnvBadVerify : SignEnv :=
  { sftpOk := true, uploadOk := fun _ => true, sshConfigOk := true,
    signOk := fun _ => true, fetchOk := fun _ => true, keyringOk := true,
    verifyOk := fun _ => false, removeOk := fun _ => true }

/-! ## Source-host release asset upload
(`uploadFilesToGithub`, `getReleaseAsset`, `uploadToS3`)

The target release's assets are the `ReleaseState`; GitHub assigns each
uploaded asset a fresh numeric id, modelled by an increasing counter.
`uploadFilesToGithub` records its mutating calls as `AssetOp`s. -/

/-- The asset list of the target release, plus GitHub's id counter
(every stored asset has an id below `nextId`). -/
structure ReleaseState where
  assets : List ReleaseAsset
  nextId : Nat
deriving DecidableEq, Repr

/-- A mutating release-asset call. -/
inductive AssetOp where
  | deleteAsset (id : Nat)
  | uploadAsset (name : String)
deriving DecidableEq, Repr

/-- Embedding of `getReleaseAsset`: list the release's assets and return
the first one carrying the wanted name (`none` models its
`could not find github release asset` error). -/
def getReleaseAsset (assets : List ReleaseAsset) (assetName : String) :
    Option ReleaseAsset :=
  assets.find? (fun a => a.name == assetName)

/-- `client.Repositories.UploadReleaseAsset`: the new asset is appended
with a fresh id. -/
def uploadReleaseAsset (st : ReleaseState) (assetName : String) : ReleaseState :=
  { assets := st.assets ++ [⟨st.nextId, assetName⟩], nextId := st.nextId + 1 }

/-- `client.Repositories.DeleteReleaseAsset`: removes the asset with the
given id. -/
def deleteReleaseAsset (st : ReleaseState) (id : Nat) : ReleaseState :=
  { st with assets := st.assets.filter (fun a => a.id != id) }

/-- The per-file body of `uploadFilesToGithub`: the asset name is the
file's base name; if an asset with that name already exists on the
release it is deleted first, then the new file is uploaded. -/
def uploadOneFileToGithub (st : ReleaseState) (filePath : String) :
    ReleaseState × List AssetOp :=
  let assetName := baseNameStr filePath
  match getReleaseAsset st.assets assetName with
  | some asset =>
      (uploadReleaseAsset (deleteReleaseAsset st asset.id) assetName,
       [.deleteAsset asset.id, .uploadAsset assetName])
  | none => (uploadReleaseAsset st assetName, [.uploadAsset assetName])

/-- Embedding of `uploadFilesToGithub` over its file list, returning the
release state afterwards and the mutating calls in order. -/
def uploadFilesToGithub : ReleaseState → List String → ReleaseState × List AssetOp
  | st, [] => (st, [])
  | st, f :: rest =>
      let r := uploadOneFileToGithub st f
      let r2 := uploadFilesToGithub r.1 rest
      (r2.1, r.2 ++ r2.2)

/-- How many assets of the release carry the given name. -/
def countNamed (assets : List ReleaseAsset) (n : String) : Nat :=
  assets.countP (fun a => a.name == n)

/-! ## The `cutplugin` command layer (`cutPluginCommandF`, `server/server.go`)

The chat command validates its inputs (non-empty tag with a leading `v`
followed by strict semver, non-empty repository that the org owns),
creates the tag, and — unless the tag already exists and `--force` was
not given — posts the kickoff message and launches the `cutPlugin`
workflow in a goroutine.  The outcome records the responses written to
the requester and whether the workflow goroutine was started.

`semverOK` models the strict parser of the external `blang/semver`
dependency (the repository only consumes its accept/reject verdict). -/

/-- Characters blang/semver admits in prerelease/build identifiers
(letters, digits, and the hyphen). -/
def isSemverAlnum (c : Char) : Bool := c.isAlpha || c.isDigit || c = '-'

/-- A non-empty all-digit numeral without leading zeroes. -/
def numericNoLeadingZeros (l : List Char) : Bool :=
  match l with
  | [] => false
  | c :: rest => (c :: rest).all Char.isDigit && !(c = '0' && !rest.isEmpty)

def splitOnCharAux (sep : Char) : List Char → List Char → List (List Char)
  | [], acc => [acc.reverse]
  | c :: rest, acc =>
      if c = sep then acc.reverse :: splitOnCharAux sep rest []
      else splitOnCharAux sep rest (c :: acc)

/-- Split a character list on a separator (`strings.Split`). -/
def splitOnChar (sep : Char) (l : List Char) : List (List Char) :=
  splitOnCharAux sep l []

def joinWithChar (sep : Char) : List (List Char) → List Char
  | [] => []
  | [x] => x
  | x :: xs => x ++ sep :: joinWithChar sep xs

/-- `strings.SplitN(s, sep, 3)`. -/
def splitN3 (sep : Char) (l : List Char) : List (List Char) :=
  match splitOnChar sep l with
  | p0 :: p1 :: p2 :: rest => [p0, p1, joinWithChar sep (p2 :: rest)]
  | parts => parts

/-- Split at the first occurrence of a separator, if any
(`strings.IndexRune` plus slicing). -/
def splitAtFirst (sep : Char) : List Char → Option (List Char × List Char)
  | [] => none
  | c :: rest =>
      if c = sep then some ([], rest)
      else (splitAtFirst sep rest).map (fun pr => (c :: pr.1, pr.2))

/-- A valid prerelease identifier: non-empty; numeric ones must have no
leading zeroes, the rest must be alphanumeric. -/
def prereleaseIdOK (l : List Char) : Bool :=
  !l.isEmpty &&
    (if l.all Char.isDigit then !(l.headD ' ' = '0' && 1 < l.length)
     else l.all isSemverAlnum)

/-- A valid build identifier: non-empty and alphanumeric. -/
def buildIdOK (l : List Char) : Bool := !l.isEmpty && l.all isSemverAlnum

/-- Models `semver.Parse` of the external blang/semver dependency
(strict mode, as `cutPluginCommandF` uses it): `true` exactly when the
string is `major.minor.patch` with optional `-prerelease` and `+build`
suffixes on the third component. -/
def semverOK (s : String) : Bool :=
  match splitN3 '.' s.data with
  | [major, minor, patchFull] =>
      numericNoLeadingZeros major && numericNoLeadingZeros minor &&
      (let bsplit := match splitAtFirst '+' patchFull with
        | some pr => (pr.1, some pr.2)
        | none => (patchFull, none)
       let psplit := match splitAtFirst '-' bsplit.1 with
        | some pr => (pr.1, some pr.2)
        | none => (bsplit.1, none)
       numericNoLeadingZeros psplit.1 &&
       (match psplit.2 with
        | none => true
        | some p => (splitOnChar '.' p).all prereleaseIdOK) &&
       (match bsplit.2 with
        | none => true
        | some b => (splitOnChar '.' b).all buildIdOK))
  | _ => false

/-- A response written back to the requester: either an error response
or an enriched (titled, colored) message. -/
inductive CmdResponse where
  | errorResponse (msg : String)
  | enriched (title msg color : String)
deriving DecidableEq, Repr

/-- What one `cutplugin` command invocation did: the responses it wrote
and whether it launched the `cutPlugin` release workflow goroutine. -/
structure CutPluginCmdOutcome where
  responses : List CmdResponse
  startedCutPlugin : Bool
deriving DecidableEq, Repr

/-- Environment of the command layer: whether the repository search
(`checkRepo`) finds the repo inside the org. -/
structure CmdEnv where
  repoInOrg : Bool

/-- Embedding of `cutPluginCommandF` (`server/server.go`): validate the
tag and repository, create the tag, report duplicate tags (honouring
`--force`), and on success post the kickoff message and start the
`cutPlugin` workflow. -/
def cutPluginCommandF (env : CmdEnv) (st : GithubRepoState)
    (org username command text : String)
    (tag repo commitSHA assetName : String) (force preRelease : Bool) :
    CutPluginCmdOutcome :=
  if tag = "" then
    ⟨[.errorResponse "Tag should not be empty"], false⟩
  else if tag.data.headD ' ' ≠ 'v' then
    ⟨[.errorResponse "Tag must start with leading 'v'"], false⟩
  else if !semverOK ⟨tag.data.drop 1⟩ then
    ⟨[.errorResponse "Tag must adhere to semver after leading 'v'"], false⟩
  else if repo = "" then
    ⟨[.errorResponse "Plugin Repository should not be empty"], false⟩
  else if !env.repoInOrg then
    ⟨[.errorResponse ("looks like this repository is not part of the org or does not exist. Repo: " ++ repo)],
      false⟩
  else
    let releasePre := if preRelease then "pre-" else ""
    let msg := "@" ++ username ++ " triggered a plugin " ++ releasePre ++
      "release process using `" ++ command ++ " " ++ text ++ "`.\nTag " ++ tag ++
      " created in`" ++ repo ++
      "`. Waiting for the artifacts to sign and publish.\nWill report back when the process completes.\nGrab :coffee: and a :doughnut: "
    match (createTag st org repo tag commitSHA).result with
    | .error .tagExists =>
        if !force then
          ⟨[.errorResponse ("@" ++ username ++ " Tag " ++ tag ++ " already exists in " ++
              repo ++ ". Not generating any artifacts. Use --force to regenerate artifacts.")],
            false⟩
        else
          ⟨[.enriched "Plugin Release Process"
              ("@" ++ username ++ " Tag " ++ tag ++ " already exists in " ++ repo ++
                ". Waiting for the artifacts to sign and publish.\nWill report back when the process completes.\nGrab :coffee: and a :doughnut: ")
              "#0060aa"],
            true⟩
    | .error (.apiError e) => ⟨[.errorResponse e], false⟩
    | .ok _ => ⟨[.enriched "Plugin Release Process" msg "#0060aa"], true⟩

/-! ## The `cutPlugin` orchestrator (`cutPlugin`, `uploadToS3`)

`cutPlugin` waits for the release and its asset, splits and signs the
plugin, uploads the plugin signature to the source-host release via
`uploadFilesToGithub`, duplicates the files under the S3 naming
convention (`os.Symlink`), and finally uploads everything to the S3
release bucket.  The outcome keeps the release's asset state, the S3
objects uploaded, and an event trace interleaving the source-host asset
mutations and the object-store uploads in execution order. -/

def uploadToS3Aux (s3Ok : String → Bool) : List String → Except String Unit × List String
  | [] => (.ok (), [])
  | f :: rest =>
      if s3Ok f then
        let r := uploadToS3Aux s3Ok rest
        (r.1, ("release/" ++ baseNameStr f) :: r.2)
      else (.error ("failed to upload file, " ++ f), [])

/-- Embedding of `uploadToS3`: upload each file under the key
`release/<base>`, aborting on the first failure (`s3Ok` decides whether
opening + uploading a given file succeeds).  The second component lists
the keys uploaded before the first failure. -/
def uploadToS3 (s3Ok : String → Bool) (filePaths : List String) :
    Except String Unit × List String :=
  uploadToS3Aux s3Ok filePaths

/-- An externally visible upload event of `cutPlugin`. -/
inductive CutEvent where
  | ghAssetDeleted (id : Nat)
  | ghAssetUploaded (name : String)
  | s3ObjectUploaded (key : String)
deriving DecidableEq, Repr

/-- View a source-host asset mutation as a trace event. -/
def assetOpEvent : AssetOp → CutEvent
  | .deleteAsset id => .ghAssetDeleted id
  | .uploadAsset n => .ghAssetUploaded n

/-- Environment of one `cutPlugin` run: the source host's poll
responses, the success of the pre-release edit and of the asset
download, the content of the downloaded bundle, the signing oracles, and
the per-file S3 upload oracle. -/
structure CutEnv where
  host : Nat → HostResp
  markPreReleaseOk : Bool
  downloadOk : Bool
  assetBundle : PluginBundle
  sign : SignEnv
  s3Ok : String → Bool

/-- What a `cutPlugin` run produced: its return value, the source-host
release state afterwards, the S3 objects uploaded, and the event
trace. -/
structure CutPluginOutcome where
  result : Except String Unit
  release : ReleaseState
  s3Objects : List String
  trace : List CutEvent
deriving DecidableEq, Repr

/-- Embedding of `cutPlugin` (`server/plugin_release.go`): get the
release and its plugin asset, download it into a temp folder
(`os.MkdirTemp("", name)` is modelled as `/tmp/<name>`), split into
platform tars, sign everything, upload the plugin signature to the
source-host release, duplicate tar and signature under the S3 naming
convention, and upload the batch to S3. -/
def cutPlugin (env : CutEnv) (st : ReleaseState)
    (owner repositoryName tag assetName : String) (preRelease : Bool) :
    CutPluginOutcome :=
  match getPluginRelease env.host with
  | .error e => ⟨.error ("failed to get plugin release: " ++ e), st, [], []⟩
  | .ok pluginRelease =>
      if preRelease && !env.markPreReleaseOk then
        ⟨.error "failed to mark release as pre-release", st, [], []⟩
      else
        match getPluginAsset pluginRelease assetName with
        | .error e => ⟨.error ("failed to get plugin asset: " ++ e), st, [], []⟩
        | .ok pluginAsset =>
            let tmpFolder := "/tmp/" ++ pluginAsset.name
            if !env.downloadOk then
              ⟨.error "failed to download asset", st, [], []⟩
            else
              let githubPluginFilePath := tmpFolder ++ "/" ++ pluginAsset.name
              match createPlatformPlugins repositoryName tag env.assetBundle tmpFolder with
              | .error e => ⟨.error ("failed to create platform tars: " ++ e), st, [], []⟩
              | .ok platformTars =>
                  let platformPluginFilePaths := platformTars.map PlatformTarOut.path
                  match (signPlugins env.sign
                      (platformPluginFilePaths ++ [githubPluginFilePath]) tmpFolder).1 with
                  | .error e => ⟨.error ("failed to sign plugin tars: " ++ e), st, [], []⟩
                  | .ok _ =>
                      let githubPluginSignatureFilePath := githubPluginFilePath ++ ".sig"
                      let up := uploadFilesToGithub st [githubPluginSignatureFilePath]
                      let s3PluginFilepath :=
                        tmpFolder ++ "/" ++ repositoryName ++ "-" ++ tag ++ ".tar.gz"
                      let s3PluginSignatureFilepath := s3PluginFilepath ++ ".sig"
                      let s3Bucket := [s3PluginFilepath, s3PluginSignatureFilepath] ++
                        (platformPluginFilePaths.map (fun p => [p, p ++ ".sig"])).flatten
                      let s3 := uploadToS3 env.s3Ok s3Bucket
                      match s3.1 with
                      | .error e =>
                          ⟨.error ("failed to upload to s3: " ++ e), up.1, s3.2,
                            up.2.map assetOpEvent ++ s3.2.map CutEvent.s3ObjectUploaded⟩
                      | .ok _ =>
                          ⟨.ok (), up.1, s3.2,
                            up.2.map assetOpEvent ++ s3.2.map CutEvent.s3ObjectUploaded⟩

/-- A signing environment in which every remote call succeeds. -/
def signEnvAllOk : SignEnv :=
  { sftpOk := true, uploadOk := fun _ => true, sshConfigOk := true,
    signOk := fun _ => true, fetchOk := fun _ => true, keyringOk := true,
    verifyOk := fun _ => true, removeOk := fun _ => true }

/-- A `cutPlugin` environment for the C10 witness: the release and its
single bundle asset are available immediately, splitting and signing
succeed, and every S3 upload fails. -/
def cutEnvS3Down : CutEnv :=
  { host := fun _ =>
      .found ⟨5, "v1.0.0", [⟨9, "com.mattermost.demo-plugin-1.0.0.tar.gz"⟩]⟩,
    markPreReleaseOk := true,
    downloadOk := true,
    assetBundle := demoBundleLinux,
    sign := signEnvAllOk,
    s3Ok := fun _ => false }

end Matterbuild

namespace Matterbuild

/-! ## Theorems -/

theorem strData_append (a b : String) : (a ++ b).data = a.data ++ b.data := by
  cases a; cases b; rfl

theorem strAppend_assoc (a b c : String) : a ++ b ++ c = a ++ (b ++ c) := by
  apply String.ext
  simp only [strData_append]
  exact List.append_assoc _ _ _

theorem strHasPre_self (s : String) : strHasPre s s = true := by
  simp only [strHasPre]
  exact List.isPrefixOf_iff_prefix.mpr (List.prefix_refl _)

theorem strHasSuf_append (a b : String) : strHasSuf b (a ++ b) = true := by
  simp only [strHasSuf, strData_append]
  exact List.isSuffixOf_iff_suffix.mpr (List.suffix_append _ _)

theorem tagRefExists_of_exact {st : GithubRepoState} {tag : String} {r : GitRef}
    (hmem : r ∈ st.refs) (hname : r.ref = "refs/" ++ ("tags/" ++ tag)) :
    tagRefExists st tag = true := by
  unfold tagRefExists
  rw [List.any_eq_true]
  refine ⟨r, List.mem_filter.mpr ⟨hmem, ?_⟩, ?_⟩
  · rw [hname]; exact strHasPre_self _
  · rw [hname]; exact strHasSuf_append _ _

theorem find?_exact_none {st : GithubRepoState} {tag : String}
    (h : tagRefExists st tag = false) :
    st.refs.find? (fun r => r.ref == "refs/" ++ ("tags/" ++ tag)) = none := by
  cases hf : st.refs.find? (fun r => r.ref == "refs/" ++ ("tags/" ++ tag)) with
  | none => rfl
  | some r =>
      have hmem := List.mem_of_find?_eq_some hf
      have hp := List.find?_some hf
      have hname : r.ref = "refs/" ++ ("tags/" ++ tag) := by
        simpa using hp
      rw [tagRefExists_of_exact hmem hname] at h
      cases h

theorem find?_append_exact (l : List GitRef) (tag sha : String)
    (h : l.find? (fun r => r.ref == "refs/" ++ ("tags/" ++ tag)) = none) :
    (l ++ [(⟨"refs/" ++ ("tags/" ++ tag), sha⟩ : GitRef)]).find?
      (fun r => r.ref == "refs/" ++ ("tags/" ++ tag)) =
      some (⟨"refs/" ++ ("tags/" ++ tag), sha⟩ : GitRef) := by
  rw [List.find?_append, h]
  simp [List.find?]

/-- C1: for every `(owner, repo, tag)` such that a ref `refs/tags/<tag>`
already exists, `createTag` returns `ErrTagExists`, performs no mutating
calls (its operation trace is empty: no tag object and no ref is
created), and leaves the repository state — in particular the
pre-existing tag — untouched. -/
theorem createTag_existing_tag_no_mutation
    (st : GithubRepoState) (owner repository tag commitSHA : String)
    (r : GitRef) (hmem : r ∈ st.refs)
    (hname : r.ref = "refs/tags/" ++ tag) :
    createTag st owner repository tag commitSHA = ⟨.error .tagExists, st, []⟩ := by
  have hlit : ("refs/tags/" : String) = "refs/" ++ "tags/" := by decide
  have hname' : r.ref = "refs/" ++ ("tags/" ++ tag) := by
    rw [hname, hlit, strAppend_assoc]
  have hex : tagRefExists st tag = true := tagRefExists_of_exact hmem hname'
  unfold createTag
  simp [hex]

/-- C1 witness: on `stTagged`, which already carries `refs/tags/v1.2.3`,
`createTag` returns `ErrTagExists` with an empty mutation trace. -/
theorem createTag_existing_tag_no_mutation_witness :
    createTag stTagged "mattermost" "mattermost-plugin-demo" "v1.2.3" "" =
      ⟨.error .tagExists, stTagged, []⟩ :=
  createTag_existing_tag_no_mutation stTagged "mattermost" "mattermost-plugin-demo"
    "v1.2.3" "" ⟨"refs/tags/v1.2.3", "deadbeef1"⟩ (by decide) (by decide)

/-- C6: for every `createTag` call on a repository with no existing
`tags/<tag>` ref: (1) with an empty `commitSHA` and a successful
default-branch lookup the tag is created at the default branch's tip,
and a subsequent ref lookup of `tags/<tag>` returns that SHA; (2) with
an empty `commitSHA` and a failed default-branch lookup it falls back to
branch `master`; (3) a provided but non-existent `commitSHA` makes
`createTag` fail without creating a tag object or a ref; (4) a provided
existing `commitSHA` yields a tag whose ref lookup returns exactly that
SHA. -/
theorem createTag_fresh_tag
    (st : GithubRepoState) (owner repository tag : String)
    (hno : tagRefExists st tag = false) :
    (∀ b r, st.defaultBranch = some b → b ≠ "" →
       st.refs.find? (fun x => x.ref == "refs/heads/" ++ b) = some r →
       (createTag st owner repository tag "").result = .ok () ∧
       getGitRef (createTag st owner repository tag "").state ("tags/" ++ tag) =
         some ⟨"refs/" ++ ("tags/" ++ tag), r.sha⟩) ∧
    (∀ r, st.defaultBranch = none →
       st.refs.find? (fun x => x.ref == "refs/heads/" ++ "master") = some r →
       (createTag st owner repository tag "").result = .ok () ∧
       getGitRef (createTag st owner repository tag "").state ("tags/" ++ tag) =
         some ⟨"refs/" ++ ("tags/" ++ tag), r.sha⟩) ∧
    (∀ c, c ≠ "" → st.commits.contains c = false →
       createTag st owner repository tag c =
         ⟨.error (.apiError "failed to fetch sha details"), st, []⟩) ∧
    (∀ c, c ≠ "" → st.commits.contains c = true →
       (createTag st owner repository tag c).result = .ok () ∧
       getGitRef (createTag st owner repository tag c).state ("tags/" ++ tag) =
         some ⟨"refs/" ++ ("tags/" ++ tag), c⟩) := by
  have hfind := find?_exact_none hno
  refine ⟨?_, ?_, ?_, ?_⟩
  · intro b r hdb hb hr
    unfold createTag
    simp only [hno, Bool.false_eq_true, if_false, if_pos rfl, hdb, if_pos hb, hr]
    exact ⟨rfl, find?_append_exact _ _ _ hfind⟩
  · intro r hdb hr
    unfold createTag
    simp only [hno, Bool.false_eq_true, if_false, if_pos rfl, hdb, hr]
    exact ⟨rfl, find?_append_exact _ _ _ hfind⟩
  · intro c hc hcomm
    unfold createTag
    simp only [hno, Bool.false_eq_true, if_false, if_neg hc, hcomm]
  · intro c hc hcomm
    unfold createTag
    simp only [hno, Bool.false_eq_true, if_false, if_neg hc, hcomm, if_pos rfl]
    exact ⟨rfl, find?_append_exact _ _ _ hfind⟩

/-- C6 witness: on a repository whose default branch is `main` and with
no `v2.0.0` tag, `createTag` with an empty SHA succeeds and the
subsequent lookup of `tags/v2.0.0` returns `main`'s tip; a bogus SHA
fails without mutation. -/
theorem createTag_fresh_tag_witness :
    ((createTag stFresh "mattermost" "mattermost-plugin-demo" "v2.0.0" "").result =
        .ok () ∧
      getGitRef (createTag stFresh "mattermost" "mattermost-plugin-demo" "v2.0.0" "").state
          ("tags/" ++ "v2.0.0") =
        some ⟨"refs/" ++ ("tags/" ++ "v2.0.0"), "feedc0de1"⟩) ∧
    createTag stFresh "mattermost" "mattermost-plugin-demo" "v2.0.0" "123456" =
      ⟨.error (.apiError "failed to fetch sha details"), stFresh, []⟩ :=
  ⟨(createTag_fresh_tag stFresh "mattermost" "mattermost-plugin-demo" "v2.0.0"
      (by decide)).1 "main" ⟨"refs/heads/main", "feedc0de1"⟩ rfl (by decide) (by decide),
   (createTag_fresh_tag stFresh "mattermost" "mattermost-plugin-demo" "v2.0.0"
      (by decide)).2.2.1 "123456" (by decide) (by decide)⟩

/-- C2 (failing-input evaluation): although the source host exposes the
release together with its matching `.tar.gz` asset from the second poll
on — well within the overall timeout — the asset wait still returns the
timeout error, because `getPluginAsset` keeps re-scanning the asset
slice of the release value fetched at the first poll and never sees the
new asset.  This contradicts the claim (and `getPluginAsset`'s own
doc comment, "polls till it finds the plugin tar file"). -/
theorem waitForPluginAsset_misses_late_asset :
    (staleAssetHost 1 =
        .found ⟨10, "v1.2.3", [⟨77, "com.mattermost.demo-plugin-0.1.0.tar.gz"⟩]⟩ ∧
      1 < maxPolls ∧
      strHasSuf ".tar.gz" "com.mattermost.demo-plugin-0.1.0.tar.gz" = true) ∧
    waitForPluginAsset staleAssetHost "" = .error "timed out waiting for ok response" := by
  constructor
  · exact ⟨by decide, by decide, by decide⟩
  · decide

theorem getPluginAssetAux_scan_error (release : GhRelease) (assetName e : String)
    (fuel : Nat) (h : scanAssets release.assets assetName = .error e) :
    getPluginAssetAux release assetName fuel = .error e := by
  cases fuel <;> simp [getPluginAssetAux, h]

theorem findTarGzAsset_ambiguous :
    ∀ (l : List ReleaseAsset) (acc : Option ReleaseAsset),
      (2 ≤ l.countP isTarGz ∨ (1 ≤ l.countP isTarGz ∧ acc.isSome)) →
      ∃ nm, findTarGzAsset l acc = .error ("found unexpected file " ++ nm) ∧
        nm ∈ (l.filter isTarGz).map ReleaseAsset.name := by
  intro l
  induction l with
  | nil =>
      intro acc h
      simp [List.countP_nil] at h
  | cons a rest ih =>
      intro acc h
      by_cases hp : isTarGz a = true
      · rw [List.countP_cons_of_pos _ _ hp] at h
        cases acc with
        | some b =>
            refine ⟨a.name, ?_, ?_⟩
            · simp [findTarGzAsset, isTarGz] at hp ⊢
              simp [hp]
            · simp [List.filter_cons_of_pos hp]
        | none =>
            have h2 : 1 ≤ rest.countP isTarGz := by
              rcases h with h | ⟨_, hs⟩
              · omega
              · simp at hs
            obtain ⟨nm, hnm, hmem⟩ := ih (some a) (Or.inr ⟨h2, rfl⟩)
            refine ⟨nm, ?_, ?_⟩
            · simp [findTarGzAsset, isTarGz] at hp ⊢
              simp [hp, hnm]
            · simp [List.filter_cons_of_pos hp]
              right
              simpa using hmem
      · rw [List.countP_cons_of_neg _ _ hp] at h
        obtain ⟨nm, hnm, hmem⟩ := ih acc h
        refine ⟨nm, ?_, ?_⟩
        · simp [findTarGzAsset, isTarGz] at hp ⊢
          simp [hp, hnm]
        · simpa [List.filter_cons_of_neg hp] using hmem

theorem getPluginAssetAux_hint_exact (release : GhRelease) (assetName : String)
    (a : ReleaseAsset) (hne : assetName ≠ "") :
    ∀ fuel, getPluginAssetAux release assetName fuel = .ok a → a.name = assetName := by
  have hscan : scanAssets release.assets assetName =
      .ok (release.assets.find? (fun x => x.name == assetName)) := by
    simp [scanAssets, hne]
  intro fuel
  induction fuel with
  | zero =>
      intro h
      simp only [getPluginAssetAux, hscan] at h
      cases hf : release.assets.find? (fun x => x.name == assetName) with
      | none => simp [hf] at h
      | some b =>
          simp [hf] at h
          subst h
          simpa using List.find?_some hf
  | succ fuel ih =>
      intro h
      simp only [getPluginAssetAux, hscan] at h
      cases hf : release.assets.find? (fun x => x.name == assetName) with
      | none =>
          simp [hf] at h
          exact ih h
      | some b =>
          simp [hf] at h
          subst h
          simpa using List.find?_some hf

/-- C8 counterexample: with no hint and two `.tar.gz` assets
`a.tar.gz`, `b.tar.gz`, the ambiguity error message is
`found unexpected file b.tar.gz`; it names only the second conflicting
asset — the name of the first conflicting asset does not occur in it, so
the error does not surface "the conflicting names". -/
theorem getPluginAsset_ambiguity_counterexample :
    getPluginAsset ⟨1, "v1.0.0", [⟨1, "a.tar.gz"⟩, ⟨2, "b.tar.gz"⟩]⟩ "" =
      .error ("found unexpected file " ++ "b.tar.gz") ∧
    strContainsSub "a.tar.gz" ("found unexpected file " ++ "b.tar.gz") = false := by
  constructor
  · decide
  · decide

/-- C8 (amended): when no asset name hint is given and more than one
asset ends in `.tar.gz`, `getPluginAsset` returns the fatal error
`found unexpected file <name>` naming one of the conflicting assets
(the later one), rather than choosing an asset; when a hint is given,
any asset it returns has exactly the hinted name. -/
theorem getPluginAsset_ambiguity_fatal (release : GhRelease) :
    (2 ≤ release.assets.countP isTarGz →
      ∃ nm, getPluginAsset release "" = .error ("found unexpected file " ++ nm) ∧
        nm ∈ (release.assets.filter isTarGz).map ReleaseAsset.name) ∧
    (∀ assetName a, assetName ≠ "" → getPluginAsset release assetName = .ok a →
      a.name = assetName) := by
  constructor
  · intro h2
    obtain ⟨nm, hnm, hmem⟩ := findTarGzAsset_ambiguous release.assets none (Or.inl h2)
    refine ⟨nm, ?_, hmem⟩
    have hscan : scanAssets release.assets "" =
        .error ("found unexpected file " ++ nm) := by
      simpa [scanAssets] using hnm
    exact getPluginAssetAux_scan_error release "" _ maxPolls hscan
  · intro assetName a hne h
    exact getPluginAssetAux_hint_exact release assetName a hne maxPolls h

theorem foundCheck_true_of_ne {l : List String} {b : String} (h : l ≠ [b]) :
    (l.length != 1 || l.headD "" != b) = true := by
  cases l with
  | nil => simp
  | cons x rest =>
      cases rest with
      | nil =>
          have hx : x ≠ b := fun he => h (by rw [he])
          simp [hx]
      | cons y t =>
          have h1 : ((x :: y :: t).length != 1) = true := by
            rw [bne_iff_ne]
            simp
          rw [h1, Bool.true_or]

theorem foundCheck_false_iff {l : List String} {b : String} :
    ((l.length != 1 || l.headD "" != b) = false) ↔ l = [b] := by
  constructor
  · intro h
    rw [Bool.or_eq_false_iff] at h
    obtain ⟨h1, h2⟩ := h
    rw [bne_eq_false_iff_eq] at h1 h2
    cases l with
    | nil => simp at h1
    | cons x rest =>
        cases rest with
        | nil => simp at h2; rw [h2]
        | cons y t => simp at h1
  · intro h
    subst h
    simp

theorem createPlatformPluginsAux_head_mismatch
    (repositoryName tag pluginFolder : String) (bundle : PluginBundle)
    (platform binary : String) (rest : List (String × String))
    (outFiles : List TarPath)
    (hok : createPlatformPlugin bundle binary = .ok outFiles)
    (hne : archiveContains outFiles "plugin-" ≠ [binary]) :
    createPlatformPluginsAux repositoryName tag pluginFolder bundle
        ((platform, binary) :: rest) =
      .error ("found wrong platform binary in " ++
        (pluginFolder ++ "/" ++ repositoryName ++ "-" ++ tag ++ "-" ++ platform ++
          ".tar.gz") ++
        ", expected " ++ binary ++ ", but found " ++
        fmtFoundList (archiveContains outFiles "plugin-")) := by
  have hc := foundCheck_true_of_ne hne
  simp only [createPlatformPluginsAux, hok, hc, if_true]

theorem createPlatformPluginsAux_any_mismatch
    (repositoryName tag pluginFolder : String) (bundle : PluginBundle) :
    ∀ l : List (String × String),
      (∃ pb ∈ l, ∀ out, createPlatformPlugin bundle pb.2 = .ok out →
         archiveContains out "plugin-" ≠ [pb.2]) →
      ∃ msg, createPlatformPluginsAux repositoryName tag pluginFolder bundle l =
        .error msg := by
  intro l
  induction l with
  | nil =>
      rintro ⟨pb, hmem, _⟩
      cases hmem
  | cons hd rest ih =>
      rintro ⟨pb, hmem, hbad⟩
      obtain ⟨platform, binary⟩ := hd
      cases hcp : createPlatformPlugin bundle binary with
      | error e =>
          have hp : createPlatformPluginsAux repositoryName tag pluginFolder bundle
              ((platform, binary) :: rest) =
            .error ("failed to create platform tar for " ++
              (pluginFolder ++ "/" ++ repositoryName ++ "-" ++ tag ++ "-" ++
                platform ++ ".tar.gz") ++ ": " ++ e) := by
            simp only [createPlatformPluginsAux, hcp]
          exact ⟨_, hp⟩
      | ok out =>
          by_cases hch : archiveContains out "plugin-" = [binary]
          · have hcond := foundCheck_false_iff.mpr hch
            have hpb : pb ∈ rest := by
              rcases List.mem_cons.mp hmem with heq | hmem'
              · exfalso
                subst heq
                exact hbad out hcp hch
              · exact hmem'
            obtain ⟨msg, hmsg⟩ := ih ⟨pb, hpb, hbad⟩
            refine ⟨msg, ?_⟩
            simp only [createPlatformPluginsAux, hcp, hcond, Bool.false_eq_true,
              if_false, hmsg]
          · exact ⟨_, createPlatformPluginsAux_head_mismatch repositoryName tag
              pluginFolder bundle platform binary rest out hcp hch⟩

/-- C3: for the universal bundle whose manifest declares exactly
darwin-amd64 ↦ plugin-darwin-amd64, windows-amd64 ↦
plugin-windows-amd64.exe, linux-amd64 ↦ plugin-linux-amd64 and which
contains those binaries, `createPlatformPlugins` returns exactly 3
platform bundles, and re-opening each produced archive finds exactly one
`plugin-` file, equal to that platform's expected binary.  Moreover the
re-open check is mandatory: whenever the archive built for a platform
does not contain exactly the expected binary, `createPlatformPlugins`'s
loop returns a fatal error naming the expected and the found binaries
(and no bundle list is returned, whichever platform is bad). -/
theorem createPlatformPlugins_splits_three :
    (createPlatformPlugins "mattermost-plugin-demo" "v1.2.3" demoBundle3 "/tmp/work" =
        .ok [⟨"/tmp/work/mattermost-plugin-demo-v1.2.3-darwin-amd64.tar.gz",
              [["com.mattermost.demo-plugin", "plugin.json"],
               ["com.mattermost.demo-plugin", "server", "dist", "plugin-darwin-amd64"]]⟩,
             ⟨"/tmp/work/mattermost-plugin-demo-v1.2.3-windows-amd64.tar.gz",
              [["com.mattermost.demo-plugin", "plugin.json"],
               ["com.mattermost.demo-plugin", "server", "dist",
                "plugin-windows-amd64.exe"]]⟩,
             ⟨"/tmp/work/mattermost-plugin-demo-v1.2.3-linux-amd64.tar.gz",
              [["com.mattermost.demo-plugin", "plugin.json"],
               ["com.mattermost.demo-plugin", "server", "dist", "plugin-linux-amd64"]]⟩] ∧
      archiveContains
          [["com.mattermost.demo-plugin", "plugin.json"],
           ["com.mattermost.demo-plugin", "server", "dist", "plugin-darwin-amd64"]]
          "plugin-" = ["plugin-darwin-amd64"] ∧
      archiveContains
          [["com.mattermost.demo-plugin", "plugin.json"],
           ["com.mattermost.demo-plugin", "server", "dist", "plugin-windows-amd64.exe"]]
          "plugin-" = ["plugin-windows-amd64.exe"] ∧
      archiveContains
          [["com.mattermost.demo-plugin", "plugin.json"],
           ["com.mattermost.demo-plugin", "server", "dist", "plugin-linux-amd64"]]
          "plugin-" = ["plugin-linux-amd64"]) ∧
    (∀ (repositoryName tag pluginFolder : String) (bundle : PluginBundle)
        (platform binary : String) (rest : List (String × String))
        (outFiles : List TarPath),
      createPlatformPlugin bundle binary = .ok outFiles →
      archiveContains outFiles "plugin-" ≠ [binary] →
      createPlatformPluginsAux repositoryName tag pluginFolder bundle
          ((platform, binary) :: rest) =
        .error ("found wrong platform binary in " ++
          (pluginFolder ++ "/" ++ repositoryName ++ "-" ++ tag ++ "-" ++ platform ++
            ".tar.gz") ++
          ", expected " ++ binary ++ ", but found " ++
          fmtFoundList (archiveContains outFiles "plugin-"))) ∧
    (∀ (repositoryName tag pluginFolder : String) (bundle : PluginBundle)
        (l : List (String × String)),
      (∃ pb ∈ l, ∀ out, createPlatformPlugin bundle pb.2 = .ok out →
         archiveContains out "plugin-" ≠ [pb.2]) →
      ∃ msg, createPlatformPluginsAux repositoryName tag pluginFolder bundle l =
        .error msg) := by
  refine ⟨⟨by decide, by decide, by decide, by decide⟩, ?_, ?_⟩
  · intro repositoryName tag pluginFolder bundle platform binary rest outFiles hok hne
    exact createPlatformPluginsAux_head_mismatch repositoryName tag pluginFolder
      bundle platform binary rest outFiles hok hne
  · intro repositoryName tag pluginFolder bundle l hex
    exact createPlatformPluginsAux_any_mismatch repositoryName tag pluginFolder
      bundle l hex

/-- C3 witness: a concrete bad platform list — the expected binary for
linux-amd64 is declared as `plugin-linux-arm64`, which the produced
archive does not contain — makes the split fail. -/
theorem createPlatformPlugins_splits_three_witness :
    createPlatformPluginsAux "mattermost-plugin-demo" "v1.2.3" "/tmp/work"
        demoBundle3 [("linux-amd64", "plugin-linux-arm64")] =
      .error ("found wrong platform binary in " ++
        ("/tmp/work" ++ "/" ++ "mattermost-plugin-demo" ++ "-" ++ "v1.2.3" ++ "-" ++
          "linux-amd64" ++ ".tar.gz") ++
        ", expected " ++ "plugin-linux-arm64" ++ ", but found " ++
        fmtFoundList (archiveContains
          [["com.mattermost.demo-plugin", "plugin.json"]] "plugin-")) :=
  (createPlatformPlugins_splits_three).2.1 "mattermost-plugin-demo" "v1.2.3"
    "/tmp/work" demoBundle3 "linux-amd64" "plugin-linux-arm64" []
    [["com.mattermost.demo-plugin", "plugin.json"]] (by decide) (by decide)

/-- C7: for a universal bundle whose manifest declares (and which
contains) only the linux-amd64 binary, the splitter produces exactly one
platform bundle — for linux-amd64 — and succeeds; no bundles exist for
the unavailable platforms. -/
theorem createPlatformPlugins_single_platform :
    createPlatformPlugins "mattermost-plugin-demo" "v1.0.0" demoBundleLinux "/tmp/work" =
      .ok [⟨"/tmp/work/mattermost-plugin-demo-v1.0.0-linux-amd64.tar.gz",
            [["com.mattermost.demo-plugin", "plugin.json"],
             ["com.mattermost.demo-plugin", "server", "dist", "plugin-linux-amd64"]]⟩] := by
  decide

/-- C8 witness: on a release with assets `a.tar.gz` and `b.tar.gz`, the
hint-less wait returns the ambiguity error, and the wait with hint
`b.tar.gz` only ever returns an asset named exactly `b.tar.gz`. -/
theorem getPluginAsset_ambiguity_fatal_witness :
    (∃ nm,
        getPluginAsset ⟨1, "v1.0.0", [⟨1, "a.tar.gz"⟩, ⟨2, "b.tar.gz"⟩]⟩ "" =
          .error ("found unexpected file " ++ nm) ∧
        nm ∈ (([⟨1, "a.tar.gz"⟩, ⟨2, "b.tar.gz"⟩] : List ReleaseAsset).filter
            isTarGz).map ReleaseAsset.name) ∧
    (⟨2, "b.tar.gz"⟩ : ReleaseAsset).name = "b.tar.gz" :=
  ⟨(getPluginAsset_ambiguity_fatal ⟨1, "v1.0.0", [⟨1, "a.tar.gz"⟩, ⟨2, "b.tar.gz"⟩]⟩).1
      (by decide),
   (getPluginAsset_ambiguity_fatal ⟨1, "v1.0.0", [⟨1, "a.tar.gz"⟩, ⟨2, "b.tar.gz"⟩]⟩).2
      "b.tar.gz" ⟨2, "b.tar.gz"⟩ (by decide) (by decide)⟩

/-- C4: in every execution of `signPlugins`, staged remote copies are
removed only after upload, remote signing, signature fetch and
verification have all succeeded (a non-empty removal list implies all
four stages returned ok); and a failure of upload, remote signing,
fetch or verification makes `signPlugins` return an error with no
staged remote file removed. -/
theorem signPlugins_removes_only_after_verify
    (env : SignEnv) (filePaths : List String) (tmpFolder : String) :
    ((signPlugins env filePaths tmpFolder).2 ≠ [] →
      ∃ remotePaths remoteSignaturePaths,
        copyFilesToRemoteServer env filePaths = .ok remotePaths ∧
        signFilesOnRemoteServer env remotePaths = .ok remoteSignaturePaths ∧
        copyFilesFromRemoteServer env remoteSignaturePaths tmpFolder = .ok () ∧
        verifySignatures env filePaths = .ok ()) ∧
    (∀ e, copyFilesToRemoteServer env filePaths = .error e →
      signPlugins env filePaths tmpFolder =
        (.error ("error while copying files: " ++ e), [])) ∧
    (∀ remotePaths e, copyFilesToRemoteServer env filePaths = .ok remotePaths →
      signFilesOnRemoteServer env remotePaths = .error e →
      signPlugins env filePaths tmpFolder =
        (.error ("error while signing files: " ++ e), [])) ∧
    (∀ remotePaths sigPaths e, copyFilesToRemoteServer env filePaths = .ok remotePaths →
      signFilesOnRemoteServer env remotePaths = .ok sigPaths →
      copyFilesFromRemoteServer env sigPaths tmpFolder = .error e →
      signPlugins env filePaths tmpFolder =
        (.error ("error while copying remote files: " ++ e), [])) ∧
    (∀ remotePaths sigPaths e, copyFilesToRemoteServer env filePaths = .ok remotePaths →
      signFilesOnRemoteServer env remotePaths = .ok sigPaths →
      copyFilesFromRemoteServer env sigPaths tmpFolder = .ok () →
      verifySignatures env filePaths = .error e →
      signPlugins env filePaths tmpFolder =
        (.error ("failed signature verification: " ++ e), [])) := by
  refine ⟨?_, ?_, ?_, ?_, ?_⟩
  · intro hne
    cases h1 : copyFilesToRemoteServer env filePaths with
    | error e => simp [signPlugins, h1] at hne
    | ok remotePaths =>
        cases h2 : signFilesOnRemoteServer env remotePaths with
        | error e => simp [signPlugins, h1, h2] at hne
        | ok sigPaths =>
            cases h3 : copyFilesFromRemoteServer env sigPaths tmpFolder with
            | error e => simp [signPlugins, h1, h2, h3] at hne
            | ok u =>
                cases h4 : verifySignatures env filePaths with
                | error e => simp [signPlugins, h1, h2, h3, h4] at hne
                | ok v =>
                    cases u
                    cases v
                    exact ⟨remotePaths, sigPaths, rfl, h2, h3, rfl⟩
  · intro e h1
    simp [signPlugins, h1]
  · intro remotePaths e h1 h2
    simp [signPlugins, h1, h2]
  · intro remotePaths sigPaths e h1 h2 h3
    simp [signPlugins, h1, h2, h3]
  · intro remotePaths sigPaths e h1 h2 h3 h4
    simp [signPlugins, h1, h2, h3, h4]

/-- C4 witness: with every remote call succeeding except signature
verification, `signPlugins` on one plugin tar fails with the
verification error and removes nothing from the remote server. -/
theorem signPlugins_removes_only_after_verify_witness :
    signPlugins signEnvBadVerify ["/tmp/com.mattermost.demo-plugin-0.1.0.tar.gz"] "/tmp" =
      (.error ("failed signature verification: " ++ "error while checking the signature"),
        []) :=
  (signPlugins_removes_only_after_verify signEnvBadVerify
      ["/tmp/com.mattermost.demo-plugin-0.1.0.tar.gz"] "/tmp").2.2.2.2
    ["/tmp/" ++ baseNameStr "/tmp/com.mattermost.demo-plugin-0.1.0.tar.gz"]
    ["/opt/plugin-signer/output/" ++
      baseNameStr "/tmp/com.mattermost.demo-plugin-0.1.0.tar.gz" ++ ".sig"]
    "error while checking the signature" rfl rfl rfl rfl

theorem countP_le_one_mem_eq {l : List ReleaseAsset} {p : ReleaseAsset → Bool}
    (h : l.countP p ≤ 1) {a b : ReleaseAsset} (ha : a ∈ l) (hpa : p a = true)
    (hb : b ∈ l) (hpb : p b = true) : a = b := by
  by_contra hne
  have ha' : a ∈ l.filter p := List.mem_filter.mpr ⟨ha, hpa⟩
  have hb' : b ∈ l.filter p := List.mem_filter.mpr ⟨hb, hpb⟩
  rw [List.countP_eq_length_filter] at h
  cases hl : l.filter p with
  | nil => rw [hl] at ha'; cases ha'
  | cons x t =>
      cases t with
      | nil =>
          rw [hl] at ha' hb'
          simp at ha' hb'
          exact hne (ha'.trans hb'.symm)
      | cons y t2 =>
          rw [hl] at h
          simp at h

theorem uploadOneFileToGithub_spec (st : ReleaseState) (filePath : String)
    (hcount : countNamed st.assets (baseNameStr filePath) ≤ 1)
    (hfresh : ∀ a ∈ st.assets, a.id < st.nextId) :
    countNamed (uploadOneFileToGithub st filePath).1.assets (baseNameStr filePath) = 1 ∧
    (∀ a ∈ (uploadOneFileToGithub st filePath).1.assets,
       a.id < (uploadOneFileToGithub st filePath).1.nextId) ∧
    (uploadOneFileToGithub st filePath).1.nextId = st.nextId + 1 ∧
    getReleaseAsset (uploadOneFileToGithub st filePath).1.assets (baseNameStr filePath) =
      some ⟨st.nextId, baseNameStr filePath⟩ ∧
    (∀ a, getReleaseAsset st.assets (baseNameStr filePath) = some a →
       (uploadOneFileToGithub st filePath).2 =
         [.deleteAsset a.id, .uploadAsset (baseNameStr filePath)]) ∧
    (getReleaseAsset st.assets (baseNameStr filePath) = none →
       (uploadOneFileToGithub st filePath).2 = [.uploadAsset (baseNameStr filePath)]) := by
  cases hg : getReleaseAsset st.assets (baseNameStr filePath) with
  | none =>
      have hzero : ∀ x ∈ st.assets, (x.name == baseNameStr filePath) = false := by
        intro x hx
        have hx' := List.find?_eq_none.mp hg x hx
        exact Bool.eq_false_iff.mpr hx'
      have hc0 : st.assets.countP (fun a => a.name == baseNameStr filePath) = 0 :=
        List.countP_eq_zero.mpr (fun x hx => by rw [hzero x hx]; exact Bool.false_ne_true)
      have hfindnone : st.assets.find? (fun a => a.name == baseNameStr filePath) =
          none := hg
      refine ⟨?_, ?_, ?_, ?_, ?_, ?_⟩
      · simp only [uploadOneFileToGithub, hg, uploadReleaseAsset, countNamed,
          List.countP_append, hc0]
        simp
      · intro a ha
        simp only [uploadOneFileToGithub, hg, uploadReleaseAsset] at ha ⊢
        rcases List.mem_append.mp ha with hmem | hmem
        · exact Nat.lt_succ_of_lt (hfresh a hmem)
        · simp at hmem
          rw [hmem]
          exact Nat.lt_succ_self _
      · simp only [uploadOneFileToGithub, hg, uploadReleaseAsset]
      · simp only [uploadOneFileToGithub, hg, uploadReleaseAsset, getReleaseAsset,
          List.find?_append, hfindnone]
        simp [List.find?]
      · intro a ha
        cases ha
      · intro _
        simp only [uploadOneFileToGithub, hg]
  | some a =>
      have hg' : st.assets.find? (fun x => x.name == baseNameStr filePath) = some a := hg
      have hamem : a ∈ st.assets := List.mem_of_find?_eq_some hg'
      have hpa : (a.name == baseNameStr filePath) = true := by
        have h := List.find?_some hg'
        simpa using h
      have hzero : ∀ x ∈ st.assets.filter (fun x => x.id != a.id),
          (x.name == baseNameStr filePath) = false := by
        intro x hx
        obtain ⟨hxmem, hxid⟩ := List.mem_filter.mp hx
        cases hxname : (x.name == baseNameStr filePath) with
        | false => rfl
        | true =>
            have hxa : x = a := countP_le_one_mem_eq hcount hxmem hxname hamem hpa
            subst hxa
            simp at hxid
      have hc0 : (st.assets.filter (fun x => x.id != a.id)).countP
          (fun x => x.name == baseNameStr filePath) = 0 :=
        List.countP_eq_zero.mpr (fun x hx => by rw [hzero x hx]; exact Bool.false_ne_true)
      have hfindnone : (st.assets.filter (fun x => x.id != a.id)).find?
          (fun x => x.name == baseNameStr filePath) = none :=
        List.find?_eq_none.mpr (fun x hx => by rw [hzero x hx]; exact Bool.false_ne_true)
      refine ⟨?_, ?_, ?_, ?_, ?_, ?_⟩
      · simp only [uploadOneFileToGithub, hg, uploadReleaseAsset, deleteReleaseAsset,
          countNamed, List.countP_append, hc0]
        simp
      · intro x hx
        simp only [uploadOneFileToGithub, hg, uploadReleaseAsset,
          deleteReleaseAsset] at hx ⊢
        rcases List.mem_append.mp hx with hmem | hmem
        · exact Nat.lt_succ_of_lt (hfresh x (List.mem_of_mem_filter hmem))
        · simp at hmem
          rw [hmem]
          exact Nat.lt_succ_self _
      · simp only [uploadOneFileToGithub, hg, uploadReleaseAsset, deleteReleaseAsset]
      · simp only [uploadOneFileToGithub, hg, hg', uploadReleaseAsset, deleteReleaseAsset,
          getReleaseAsset, List.find?_append, hfindnone]
        simp [List.find?]
      · intro a' ha'
        injection ha' with hinj
        subst hinj
        simp only [uploadOneFileToGithub, hg]
      · intro h
        cases h

/-- C5: the Publisher's source-host upload is delete-then-upload and
therefore idempotent in the asset name: for a file whose base name
occurs at most once among the release's assets, whenever an asset with
that name already exists it is deleted first and then the new file is
uploaded (and with no pre-existing asset there is no delete); running
the upload twice leaves exactly one asset of that name on the release,
the second run's trace being exactly a delete of the first run's upload
followed by the new upload. -/
theorem uploadFilesToGithub_idempotent (st : ReleaseState) (filePath : String)
    (hcount : countNamed st.assets (baseNameStr filePath) ≤ 1)
    (hfresh : ∀ a ∈ st.assets, a.id < st.nextId) :
    countNamed
        (uploadFilesToGithub (uploadFilesToGithub st [filePath]).1 [filePath]).1.assets
        (baseNameStr filePath) = 1 ∧
    (uploadFilesToGithub (uploadFilesToGithub st [filePath]).1 [filePath]).2 =
      [.deleteAsset st.nextId, .uploadAsset (baseNameStr filePath)] ∧
    (∀ a, getReleaseAsset st.assets (baseNameStr filePath) = some a →
       (uploadFilesToGithub st [filePath]).2 =
         [.deleteAsset a.id, .uploadAsset (baseNameStr filePath)]) ∧
    (getReleaseAsset st.assets (baseNameStr filePath) = none →
       (uploadFilesToGithub st [filePath]).2 = [.uploadAsset (baseNameStr filePath)]) := by
  have hrun : ∀ s : ReleaseState, uploadFilesToGithub s [filePath] =
      ((uploadOneFileToGithub s filePath).1, (uploadOneFileToGithub s filePath).2) := by
    intro s
    simp [uploadFilesToGithub]
  obtain ⟨hc1, hfresh1, hnext1, hfind1, htrS, htrN⟩ :=
    uploadOneFileToGithub_spec st filePath hcount hfresh
  obtain ⟨hc2, _, _, _, htrS2, _⟩ :=
    uploadOneFileToGithub_spec (uploadOneFileToGithub st filePath).1 filePath
      (le_of_eq hc1) hfresh1
  refine ⟨?_, ?_, ?_, ?_⟩
  · rw [hrun, hrun]
    exact hc2
  · rw [hrun, hrun]
    have := htrS2 ⟨st.nextId, baseNameStr filePath⟩ hfind1
    exact this
  · intro a ha
    rw [hrun]
    exact htrS a ha
  · intro h
    rw [hrun]
    exact htrN h

/-- C9: whenever `createTag` reports `ErrTagExists` (with the command's
input validation passing), `cutPluginCommandF` without `force` writes
exactly one error response — the "already exists" message — and never
starts the release workflow (no `cutPlugin` goroutine, hence no new
artifacts); with `force` set it posts the kickoff message and starts the
asset-wait-through-publish workflow on the existing tag. -/
theorem cutPluginCommandF_tag_exists (env : CmdEnv) (st : GithubRepoState)
    (org username command text tag repo commitSHA assetName : String)
    (preRelease : Bool)
    (h1 : tag ≠ "")
    (h2 : tag.data.headD ' ' = 'v')
    (h3 : semverOK ⟨tag.data.drop 1⟩ = true)
    (h4 : repo ≠ "")
    (h5 : env.repoInOrg = true)
    (hex : (createTag st org repo tag commitSHA).result = .error .tagExists) :
    cutPluginCommandF env st org username command text tag repo commitSHA assetName
        false preRelease =
      ⟨[.errorResponse ("@" ++ username ++ " Tag " ++ tag ++ " already exists in " ++
          repo ++ ". Not generating any artifacts. Use --force to regenerate artifacts.")],
        false⟩ ∧
    cutPluginCommandF env st org username command text tag repo commitSHA assetName
        true preRelease =
      ⟨[.enriched "Plugin Release Process"
          ("@" ++ username ++ " Tag " ++ tag ++ " already exists in " ++ repo ++
            ". Waiting for the artifacts to sign and publish.\nWill report back when the process completes.\nGrab :coffee: and a :doughnut: ")
          "#0060aa"],
        true⟩ := by
  have hv : ¬ (tag.data.headD ' ' ≠ 'v') := fun h => h h2
  constructor
  · simp only [cutPluginCommandF, if_neg h1, if_neg hv, h3, Bool.not_true,
      Bool.false_eq_true, if_false, if_neg h4, h5, hex, Bool.not_false, if_true]
  · simp only [cutPluginCommandF, if_neg h1, if_neg hv, h3, Bool.not_true,
      Bool.false_eq_true, if_false, if_neg h4, h5, hex, Bool.not_false, if_true]

/-- C9 witness: on `stTagged` (tag `v1.2.3` exists) the command without
`--force` answers with the "already exists" error and starts nothing;
with `--force` it starts the workflow. -/
theorem cutPluginCommandF_tag_exists_witness :
    cutPluginCommandF ⟨true⟩ stTagged "mattermost" "releaser" "/mb" "cutplugin"
        "v1.2.3" "mattermost-plugin-demo" "" "" false false =
      ⟨[.errorResponse ("@" ++ "releaser" ++ " Tag " ++ "v1.2.3" ++ " already exists in " ++
          "mattermost-plugin-demo" ++
          ". Not generating any artifacts. Use --force to regenerate artifacts.")],
        false⟩ ∧
    (cutPluginCommandF ⟨true⟩ stTagged "mattermost" "releaser" "/mb" "cutplugin"
        "v1.2.3" "mattermost-plugin-demo" "" "" true false).startedCutPlugin = true :=
  ⟨(cutPluginCommandF_tag_exists ⟨true⟩ stTagged "mattermost" "releaser" "/mb"
      "cutplugin" "v1.2.3" "mattermost-plugin-demo" "" "" false
      (by decide) (by decide) (by decide) (by decide) rfl (by decide)).1,
   by
    rw [(cutPluginCommandF_tag_exists ⟨true⟩ stTagged "mattermost" "releaser" "/mb"
      "cutplugin" "v1.2.3" "mattermost-plugin-demo" "" "" false
      (by decide) (by decide) (by decide) (by decide) rfl (by decide)).2]⟩

theorem countNamed_after_upload_pos (st : ReleaseState) (f : String) :
    1 ≤ countNamed (uploadFilesToGithub st [f]).1.assets (baseNameStr f) := by
  cases hg : getReleaseAsset st.assets (baseNameStr f) with
  | none =>
      simp [uploadFilesToGithub, uploadOneFileToGithub, hg, uploadReleaseAsset,
        countNamed, List.countP_append]
  | some a =>
      simp [uploadFilesToGithub, uploadOneFileToGithub, hg, uploadReleaseAsset,
        deleteReleaseAsset, countNamed, List.countP_append]

theorem uploadAsset_mem_trace (st : ReleaseState) (f : String) :
    AssetOp.uploadAsset (baseNameStr f) ∈ (uploadFilesToGithub st [f]).2 := by
  cases hg : getReleaseAsset st.assets (baseNameStr f) with
  | none => simp [uploadFilesToGithub, uploadOneFileToGithub, hg]
  | some a => simp [uploadFilesToGithub, uploadOneFileToGithub, hg]

/-- C10: `cutPlugin` uploads the plugin signature to the source-host
release before any object-store upload, and performs no rollback: in
every run whose steps succeed up to and including the source-host
signature upload but whose S3 upload fails, `cutPlugin` returns an
error, yet the release state it leaves behind is exactly the
post-signature-upload state — the uploaded signature asset remains
published — and its event trace is all source-host asset mutations
(among them the signature upload) followed by the S3 uploads. -/
theorem cutPlugin_no_rollback_on_s3_failure
    (env : CutEnv) (st : ReleaseState)
    (owner repositoryName tag assetName : String) (preRelease : Bool)
    (rel : GhRelease) (asset : ReleaseAsset) (tars : List PlatformTarOut) (e : String)
    (hrel : getPluginRelease env.host = .ok rel)
    (hmark : preRelease = true → env.markPreReleaseOk = true)
    (hasset : getPluginAsset rel assetName = .ok asset)
    (hdl : env.downloadOk = true)
    (htars : createPlatformPlugins repositoryName tag env.assetBundle
        ("/tmp/" ++ asset.name) = .ok tars)
    (hsign : (signPlugins env.sign
        (tars.map PlatformTarOut.path ++ ["/tmp/" ++ asset.name ++ "/" ++ asset.name])
        ("/tmp/" ++ asset.name)).1 = .ok ())
    (hs3 : (uploadToS3 env.s3Ok
        (["/tmp/" ++ asset.name ++ "/" ++ repositoryName ++ "-" ++ tag ++ ".tar.gz",
          "/tmp/" ++ asset.name ++ "/" ++ repositoryName ++ "-" ++ tag ++ ".tar.gz" ++
            ".sig"] ++
         ((tars.map PlatformTarOut.path).map (fun p => [p, p ++ ".sig"])).flatten)).1 =
      .error e) :
    (cutPlugin env st owner repositoryName tag assetName preRelease).result =
      .error ("failed to upload to s3: " ++ e) ∧
    (cutPlugin env st owner repositoryName tag assetName preRelease).release =
      (uploadFilesToGithub st
        ["/tmp/" ++ asset.name ++ "/" ++ asset.name ++ ".sig"]).1 ∧
    1 ≤ countNamed
        (cutPlugin env st owner repositoryName tag assetName preRelease).release.assets
        (baseNameStr ("/tmp/" ++ asset.name ++ "/" ++ asset.name ++ ".sig")) ∧
    (cutPlugin env st owner repositoryName tag assetName preRelease).trace =
      (uploadFilesToGithub st
          ["/tmp/" ++ asset.name ++ "/" ++ asset.name ++ ".sig"]).2.map assetOpEvent ++
        (cutPlugin env st owner repositoryName tag assetName preRelease).s3Objects.map
          CutEvent.s3ObjectUploaded ∧
    CutEvent.ghAssetUploaded (baseNameStr ("/tmp/" ++ asset.name ++ "/" ++ asset.name ++ ".sig"))
      ∈ (uploadFilesToGithub st
          ["/tmp/" ++ asset.name ++ "/" ++ asset.name ++ ".sig"]).2.map assetOpEvent := by
  have hcond : (preRelease && !env.markPreReleaseOk) = false := by
    cases preRelease with
    | false => simp
    | true => simp [hmark rfl]
  have hmain : cutPlugin env st owner repositoryName tag assetName preRelease =
      ⟨.error ("failed to upload to s3: " ++ e),
       (uploadFilesToGithub st
         ["/tmp/" ++ asset.name ++ "/" ++ asset.name ++ ".sig"]).1,
       (uploadToS3 env.s3Ok
         (["/tmp/" ++ asset.name ++ "/" ++ repositoryName ++ "-" ++ tag ++ ".tar.gz",
           "/tmp/" ++ asset.name ++ "/" ++ repositoryName ++ "-" ++ tag ++ ".tar.gz" ++
             ".sig"] ++
          ((tars.map PlatformTarOut.path).map (fun p => [p, p ++ ".sig"])).flatten)).2,
       (uploadFilesToGithub st
           ["/tmp/" ++ asset.name ++ "/" ++ asset.name ++ ".sig"]).2.map assetOpEvent ++
         (uploadToS3 env.s3Ok
           (["/tmp/" ++ asset.name ++ "/" ++ repositoryName ++ "-" ++ tag ++ ".tar.gz",
             "/tmp/" ++ asset.name ++ "/" ++ repositoryName ++ "-" ++ tag ++ ".tar.gz" ++
               ".sig"] ++
            ((tars.map PlatformTarOut.path).map (fun p => [p, p ++ ".sig"])).flatten)).2.map
           CutEvent.s3ObjectUploaded⟩ := by
    simp only [cutPlugin, hrel, hcond, Bool.false_eq_true, if_false, hasset, hdl,
      Bool.not_true, htars, hsign, hs3]
  refine ⟨?_, ?_, ?_, ?_, ?_⟩
  · rw [hmain]
  · rw [hmain]
  · rw [hmain]
    exact countNamed_after_upload_pos st _
  · rw [hmain]
  · exact List.mem_map_of_mem assetOpEvent (uploadAsset_mem_trace st _)

/-- C10 witness: with the release and bundle available, signing fine,
and S3 down, `cutPlugin` fails with the S3 error while the signature
asset it uploaded to the source-host release is still there. -/
theorem cutPlugin_no_rollback_on_s3_failure_witness :
    (cutPlugin cutEnvS3Down ⟨[], 0⟩ "mattermost" "mattermost-plugin-demo" "v1.0.0" ""
        false).result =
      .error ("failed to upload to s3: " ++
        ("failed to upload file, " ++
          ("/tmp/" ++ "com.mattermost.demo-plugin-1.0.0.tar.gz" ++ "/" ++
            "mattermost-plugin-demo" ++ "-" ++ "v1.0.0" ++ ".tar.gz"))) ∧
    1 ≤ countNamed
        (cutPlugin cutEnvS3Down ⟨[], 0⟩ "mattermost" "mattermost-plugin-demo" "v1.0.0" ""
          false).release.assets
        (baseNameStr ("/tmp/" ++ "com.mattermost.demo-plugin-1.0.0.tar.gz" ++ "/" ++
          "com.mattermost.demo-plugin-1.0.0.tar.gz" ++ ".sig")) :=
  ⟨(cutPlugin_no_rollback_on_s3_failure cutEnvS3Down ⟨[], 0⟩ "mattermost"
      "mattermost-plugin-demo" "v1.0.0" "" false
      ⟨5, "v1.0.0", [⟨9, "com.mattermost.demo-plugin-1.0.0.tar.gz"⟩]⟩
      ⟨9, "com.mattermost.demo-plugin-1.0.0.tar.gz"⟩
      [⟨"/tmp/com.mattermost.demo-plugin-1.0.0.tar.gz/mattermost-plugin-demo-v1.0.0-linux-amd64.tar.gz",
        [["com.mattermost.demo-plugin", "plugin.json"],
         ["com.mattermost.demo-plugin", "server", "dist", "plugin-linux-amd64"]]⟩]
      ("failed to upload file, " ++
        ("/tmp/" ++ "com.mattermost.demo-plugin-1.0.0.tar.gz" ++ "/" ++
          "mattermost-plugin-demo" ++ "-" ++ "v1.0.0" ++ ".tar.gz"))
      (by decide) (fun h => nomatch h) (by decide) (by decide) (by decide)
      (by decide) (by decide)).1,
   (cutPlugin_no_rollback_on_s3_failure cutEnvS3Down ⟨[], 0⟩ "mattermost"
      "mattermost-plugin-demo" "v1.0.0" "" false
      ⟨5, "v1.0.0", [⟨9, "com.mattermost.demo-plugin-1.0.0.tar.gz"⟩]⟩
      ⟨9, "com.mattermost.demo-plugin-1.0.0.tar.gz"⟩
      [⟨"/tmp/com.mattermost.demo-plugin-1.0.0.tar.gz/mattermost-plugin-demo-v1.0.0-linux-amd64.tar.gz",
        [["com.mattermost.demo-plugin", "plugin.json"],
         ["com.mattermost.demo-plugin", "server", "dist", "plugin-linux-amd64"]]⟩]
      ("failed to upload file, " ++
        ("/tmp/" ++ "com.mattermost.demo-plugin-1.0.0.tar.gz" ++ "/" ++
          "mattermost-plugin-demo" ++ "-" ++ "v1.0.0" ++ ".tar.gz"))
      (by decide) (fun h => nomatch h) (by decide) (by decide) (by decide)
      (by decide) (by decide)).2.2.1⟩

/-- C5 witness: uploading `/tmp/demo.tar.gz.sig` twice to an empty
release leaves exactly one asset named `demo.tar.gz.sig`, the second run
deleting the first run's asset (id 0) before re-uploading. -/
theorem uploadFilesToGithub_idempotent_witness :
    countNamed
        (uploadFilesToGithub (uploadFilesToGithub ⟨[], 0⟩ ["/tmp/demo.tar.gz.sig"]).1
          ["/tmp/demo.tar.gz.sig"]).1.assets
        (baseNameStr "/tmp/demo.tar.gz.sig") = 1 ∧
    (uploadFilesToGithub (uploadFilesToGithub ⟨[], 0⟩ ["/tmp/demo.tar.gz.sig"]).1
        ["/tmp/demo.tar.gz.sig"]).2 =
      [.deleteAsset 0, .uploadAsset (baseNameStr "/tmp/demo.tar.gz.sig")] :=
  ⟨(uploadFilesToGithub_idempotent ⟨[], 0⟩ "/tmp/demo.tar.gz.sig"
      (by simp [countNamed]) (by simp)).1,
   (uploadFilesToGithub_idempotent ⟨[], 0⟩ "/tmp/demo.tar.gz.sig"
      (by simp [countNamed]) (by simp)).2.1⟩

end Matterbuild
